import Mathlib

/-!
Verification of the GLID3XL sampling core
(`maua/diffusion/wrappers/glid3xl.py`).

The embedding models a batched tensor as a list of rows, one row per batch
item; each row is the list of per-channel values, with the spatial
dimensions of a channel abstracted to a single rational value (every
operation the sampling core performs on the spatial axes is elementwise, so
one representative value per channel suffices).  The denoising network is an
opaque function parameter, as the source treats it.
-/

namespace Maua

/-- A batched tensor: outer list indexes the batch, inner list the channels. -/
abbrev Tensor := List (List ℚ)

/-- The tensor is a well-formed `[batch, c]` array: every row has length `c`. -/
def Rect (t : Tensor) (c : Nat) : Prop := ∀ r ∈ t, r.length = c

instance (t : Tensor) (c : Nat) : Decidable (Rect t c) :=
  List.decidableBAll _ t

/-- Elementwise binary operation on two same-shaped tensors
(torch arithmetic on tensors of identical shape). -/
def tMap2 (f : ℚ → ℚ → ℚ) (a b : Tensor) : Tensor :=
  List.zipWith (List.zipWith f) a b

/-- Elementwise tensor addition. -/
def tAdd : Tensor → Tensor → Tensor := tMap2 (· + ·)

/-- Elementwise tensor subtraction. -/
def tSub : Tensor → Tensor → Tensor := tMap2 (· - ·)

/-- Multiplication of a tensor by a scalar. -/
def tSmul (s : ℚ) (a : Tensor) : Tensor := a.map (List.map (s * ·))

/-! ### The classifier-free-guidance wrapper `model_fn`

Source (glid3xl.py lines 176-184):

    def model_fn(x_t, ts, scale, **kwargs):
        half = x_t[: len(x_t) // 2]
        combined = torch.cat([half, half], dim=0)
        model_out = self.model(combined, ts, **kwargs)
        eps, rest = model_out[:, :3], model_out[:, 3:]
        cond_eps, uncond_eps = torch.split(eps, len(eps) // 2, dim=0)
        half_eps = uncond_eps + scale * (cond_eps - uncond_eps)
        eps = torch.cat([half_eps, half_eps], dim=0)
        return torch.cat([eps, rest], dim=1)

The network `self.model` is abstracted to `net : Tensor → Int → Tensor`
(latent batch and timestep in; the fixed keyword context is folded into
`net`).  `torch.split(eps, len(eps) // 2, dim=0)` unpacked into two names
requires the batch to split into exactly two chunks, i.e. an even batch;
for an even batch the chunks are `take` and `drop` of half the length. -/

/-- Lines 177-178: `half = x_t[: len(x_t) // 2]`,
`combined = torch.cat([half, half], dim=0)`. -/
def combinedOf (x_t : Tensor) : Tensor :=
  x_t.take (x_t.length / 2) ++ x_t.take (x_t.length / 2)

/-- Line 180, first component: `eps = model_out[:, :3]`. -/
def epsOf (net : Tensor → Int → Tensor) (ts : Int) (x_t : Tensor) : Tensor :=
  (net (combinedOf x_t) ts).map (List.take 3)

/-- Line 180, second component: `rest = model_out[:, 3:]`. -/
def restOf (net : Tensor → Int → Tensor) (ts : Int) (x_t : Tensor) : Tensor :=
  (net (combinedOf x_t) ts).map (List.drop 3)

/-- Line 181, first half of the split: `cond_eps`. -/
def condEps (net : Tensor → Int → Tensor) (ts : Int) (x_t : Tensor) : Tensor :=
  (epsOf net ts x_t).take ((epsOf net ts x_t).length / 2)

/-- Line 181, second half of the split: `uncond_eps`. -/
def uncondEps (net : Tensor → Int → Tensor) (ts : Int) (x_t : Tensor) : Tensor :=
  (epsOf net ts x_t).drop ((epsOf net ts x_t).length / 2)

/-- Line 182: `half_eps = uncond_eps + scale * (cond_eps - uncond_eps)`. -/
def halfEps (net : Tensor → Int → Tensor) (ts : Int) (scale : ℚ) (x_t : Tensor) : Tensor :=
  tAdd (uncondEps net ts x_t) (tSmul scale (tSub (condEps net ts x_t) (uncondEps net ts x_t)))

/-- Lines 183-184: duplicate `half_eps` along the batch and re-concatenate the
auxiliary channels along the channel axis. -/
def model_fn (net : Tensor → Int → Tensor) (x_t : Tensor) (ts : Int) (scale : ℚ) : Tensor :=
  List.zipWith (· ++ ·) (halfEps net ts scale x_t ++ halfEps net ts scale x_t) (restOf net ts x_t)

/-! ### Helper lemmas about rows -/

theorem rect_getElem {t : Tensor} {c : Nat} (h : Rect t c) (i : Nat)
    (hi : i < t.length) : t[i].length = c :=
  h _ (t.getElem_mem hi)

/-- Fusing the torch expression `u + s * (c - u)` into one elementwise map on rows. -/
theorem row_guidance (s : ℚ) (u c : List ℚ) :
    List.zipWith (· + ·) u (List.map (s * ·) (List.zipWith (· - ·) c u)) =
      List.zipWith (fun a b => a + s * (b - a)) u c := by
  induction u generalizing c with
  | nil => simp
  | cons a u ih =>
    cases c with
    | nil => simp
    | cons b c => simp [ih]

theorem row_scale_one (u c : List ℚ) (h : c.length ≤ u.length) :
    List.zipWith (fun a b => a + 1 * (b - a)) u c = c := by
  induction u generalizing c with
  | nil =>
    cases c with
    | nil => rfl
    | cons b c => simp at h
  | cons a u ih =>
    cases c with
    | nil => rfl
    | cons b c =>
      simp only [List.zipWith_cons_cons]
      rw [show a + 1 * (b - a) = b by ring, ih c (by simpa using h)]

theorem row_scale_zero (u c : List ℚ) (h : u.length ≤ c.length) :
    List.zipWith (fun a b => a + 0 * (b - a)) u c = u := by
  induction u generalizing c with
  | nil => rfl
  | cons a u ih =>
    cases c with
    | nil => simp at h
    | cons b c =>
      simp only [List.zipWith_cons_cons]
      rw [show a + 0 * (b - a) = a by ring, ih c (by simpa using h)]

theorem length_epsOf (net : Tensor → Int → Tensor) (ts : Int) (x_t : Tensor) :
    (epsOf net ts x_t).length = (net (combinedOf x_t) ts).length := by
  simp [epsOf]

theorem length_condEps {net : Tensor → Int → Tensor} {ts : Int} {x_t : Tensor} {N : Nat}
    (hb : (net (combinedOf x_t) ts).length = 2 * N) :
    (condEps net ts x_t).length = N := by
  simp [condEps, length_epsOf, hb]
  omega

theorem length_uncondEps {net : Tensor → Int → Tensor} {ts : Int} {x_t : Tensor} {N : Nat}
    (hb : (net (combinedOf x_t) ts).length = 2 * N) :
    (uncondEps net ts x_t).length = N := by
  simp [uncondEps, length_epsOf, hb]
  omega

theorem rect_take {t : Tensor} {c : Nat} (h : Rect t c) (n : Nat) :
    Rect (t.take n) c :=
  fun r hr => h r ((List.take_sublist n t).mem hr)

theorem rect_drop {t : Tensor} {c : Nat} (h : Rect t c) (n : Nat) :
    Rect (t.drop n) c :=
  fun r hr => h r ((List.drop_sublist n t).mem hr)

theorem rect_epsOf {net : Tensor → Int → Tensor} {ts : Int} {x_t : Tensor} {C : Nat}
    (hr : Rect (net (combinedOf x_t) ts) C) :
    Rect (epsOf net ts x_t) (min 3 C) := by
  intro r hm
  obtain ⟨a, ha, rfl⟩ := List.mem_map.1 hm
  simp [hr _ ha]

theorem rect_condEps {net : Tensor → Int → Tensor} {ts : Int} {x_t : Tensor} {C : Nat}
    (hr : Rect (net (combinedOf x_t) ts) C) :
    Rect (condEps net ts x_t) (min 3 C) :=
  rect_take (rect_epsOf hr) _

theorem rect_uncondEps {net : Tensor → Int → Tensor} {ts : Int} {x_t : Tensor} {C : Nat}
    (hr : Rect (net (combinedOf x_t) ts) C) :
    Rect (uncondEps net ts x_t) (min 3 C) :=
  rect_drop (rect_epsOf hr) _

theorem rect_of_getElem {t : Tensor} {c : Nat}
    (h : ∀ (i : Nat) (hi : i < t.length), t[i].length = c) : Rect t c := by
  intro r hr
  obtain ⟨i, hi, rfl⟩ := List.getElem_of_mem hr
  exact h i hi

/-- Blending with scale 1 returns the conditional estimate (rowwise shapes permitting). -/
theorem tensor_blend_one (U Cd : Tensor) (hUC : Cd.length ≤ U.length)
    (hrow : ∀ (i : Nat) (h1 : i < U.length) (h2 : i < Cd.length),
      Cd[i].length ≤ U[i].length) :
    tAdd U (tSmul 1 (tSub Cd U)) = Cd := by
  apply List.ext_getElem
  · simp only [tAdd, tMap2, tSmul, tSub, List.length_zipWith, List.length_map]
    omega
  · intro i h1 h2
    simp only [tAdd, tMap2, tSmul, tSub, List.getElem_zipWith, List.getElem_map]
    rw [row_guidance]
    exact row_scale_one _ _ (hrow i (by omega) h2)

/-- Blending with scale 0 returns the unconditional estimate (rowwise shapes permitting). -/
theorem tensor_blend_zero (U Cd : Tensor) (hUC : U.length ≤ Cd.length)
    (hrow : ∀ (i : Nat) (h1 : i < U.length) (h2 : i < Cd.length),
      U[i].length ≤ Cd[i].length) :
    tAdd U (tSmul 0 (tSub Cd U)) = U := by
  apply List.ext_getElem
  · simp only [tAdd, tMap2, tSmul, tSub, List.length_zipWith, List.length_map]
    omega
  · intro i h1 h2'
    simp only [tAdd, tMap2, tSmul, tSub, List.getElem_zipWith, List.getElem_map]
    rw [row_guidance]
    exact row_scale_zero _ _ (hrow i h2' (by omega))

/-- C2: `model_fn` computes `half_eps = uncond_eps + s * (cond_eps - uncond_eps)`,
where `cond_eps` and `uncond_eps` are the first and second batch halves of the
first 3 output channels of the network; with `s = 1` the guided estimate equals
the plain conditional estimate, and with `s = 0` it equals the unconditional
estimate.  The hypotheses say the network output on the collapsed-then-duplicated
batch is a well-formed tensor with an even batch size. -/
theorem model_fn_cfg_blend (net : Tensor → Int → Tensor) (ts : Int) (s : ℚ)
    (x_t : Tensor) (N C : Nat)
    (hb : (net (combinedOf x_t) ts).length = 2 * N)
    (hr : Rect (net (combinedOf x_t) ts) C) :
    halfEps net ts s x_t
        = tAdd (uncondEps net ts x_t)
            (tSmul s (tSub (condEps net ts x_t) (uncondEps net ts x_t)))
      ∧ halfEps net ts 1 x_t = condEps net ts x_t
      ∧ halfEps net ts 0 x_t = uncondEps net ts x_t := by
  refine ⟨rfl, ?_, ?_⟩
  · apply tensor_blend_one
    · rw [length_condEps hb, length_uncondEps hb]
    · intro i h1 h2
      rw [rect_getElem (rect_condEps hr) i h2, rect_getElem (rect_uncondEps hr) i h1]
  · apply tensor_blend_zero
    · rw [length_condEps hb, length_uncondEps hb]
    · intro i h1 h2
      rw [rect_getElem (rect_condEps hr) i h2, rect_getElem (rect_uncondEps hr) i h1]

/-- A concrete identity network used to instantiate the guidance theorems. -/
def idNet : Tensor → Int → Tensor := fun m _ => m

/-- A concrete dual-batch input (batch 2, 4 channels). -/
def xW : Tensor := [[1, 2, 3, 4], [5, 6, 7, 8]]

theorem model_fn_cfg_blend_witness :
    (idNet (combinedOf xW) 0).length = 2 * 1
      ∧ Rect (idNet (combinedOf xW) 0) 4
      ∧ halfEps idNet 0 1 xW = condEps idNet 0 xW
      ∧ halfEps idNet 0 0 xW = uncondEps idNet 0 xW := by
  have h := model_fn_cfg_blend idNet 0 2 xW 1 4 (by decide) (by decide)
  exact ⟨by decide, by decide, h.2.1, h.2.2⟩

theorem length_restOf (net : Tensor → Int → Tensor) (ts : Int) (x_t : Tensor) :
    (restOf net ts x_t).length = (net (combinedOf x_t) ts).length := by
  simp [restOf]

theorem rect_restOf {net : Tensor → Int → Tensor} {ts : Int} {x_t : Tensor} {C : Nat}
    (hr : Rect (net (combinedOf x_t) ts) C) :
    Rect (restOf net ts x_t) (C - 3) := by
  intro r hm
  obtain ⟨a, ha, rfl⟩ := List.mem_map.1 hm
  simp [hr _ ha]

theorem rect_append {A B : Tensor} {c : Nat} (hA : Rect A c) (hB : Rect B c) :
    Rect (A ++ B) c :=
  fun r hr => (List.mem_append.1 hr).elim (hA r) (hB r)

theorem rect_blend (s : ℚ) {U Cd : Tensor} {c : Nat} (hU : Rect U c) (hCd : Rect Cd c) :
    Rect (tAdd U (tSmul s (tSub Cd U))) c := by
  apply rect_of_getElem
  intro i hi
  simp only [tAdd, tMap2, tSmul, tSub, List.length_zipWith, List.length_map] at hi
  simp only [tAdd, tMap2, tSmul, tSub, List.getElem_zipWith, List.getElem_map,
    List.length_zipWith, List.length_map]
  rw [rect_getElem hU i (by omega), rect_getElem hCd i (by omega)]
  omega

theorem length_halfEps {net : Tensor → Int → Tensor} {ts : Int} {x_t : Tensor} {N : Nat}
    (hb : (net (combinedOf x_t) ts).length = 2 * N) (s : ℚ) :
    (halfEps net ts s x_t).length = N := by
  simp only [halfEps, tAdd, tMap2, tSmul, tSub, List.length_zipWith, List.length_map]
  rw [length_condEps hb, length_uncondEps hb]
  omega

/-- C3: on a dual-batch input of size 2N, `model_fn` returns a tensor of the same
shape as its input; its first 3 channels are two identical N-sized batch halves
(both equal to the blended `half_eps`), and the channels beyond the first 3 are
passed through unchanged from the single network evaluation on the
collapsed-then-duplicated batch. -/
theorem model_fn_shape_passthrough (net : Tensor → Int → Tensor) (ts : Int) (s : ℚ)
    (x_t : Tensor) (N C : Nat)
    (hx : x_t.length = 2 * N)
    (hb : (net (combinedOf x_t) ts).length = 2 * N)
    (hrx : Rect x_t C)
    (hr : Rect (net (combinedOf x_t) ts) C)
    (hC : 3 ≤ C) :
    (model_fn net x_t ts s).length = x_t.length
      ∧ Rect (model_fn net x_t ts s) C
      ∧ (model_fn net x_t ts s).map (List.take 3)
          = halfEps net ts s x_t ++ halfEps net ts s x_t
      ∧ ((model_fn net x_t ts s).map (List.take 3)).take N
          = ((model_fn net x_t ts s).map (List.take 3)).drop N
      ∧ (model_fn net x_t ts s).map (List.drop 3) = restOf net ts x_t := by
  have hH : (halfEps net ts s x_t).length = N := length_halfEps hb s
  have hHr : Rect (halfEps net ts s x_t) 3 := by
    have h := rect_blend s (rect_uncondEps hr) (rect_condEps hr)
    rwa [Nat.min_eq_left hC] at h
  have hHHr : Rect (halfEps net ts s x_t ++ halfEps net ts s x_t) 3 := rect_append hHr hHr
  have hHH : (halfEps net ts s x_t ++ halfEps net ts s x_t).length = 2 * N := by
    rw [List.length_append, hH]; omega
  have hRl : (restOf net ts x_t).length = 2 * N := by rw [length_restOf, hb]
  have hRr : Rect (restOf net ts x_t) (C - 3) := rect_restOf hr
  have hlen : (model_fn net x_t ts s).length = 2 * N := by
    simp only [model_fn, List.length_zipWith, hHH, hRl]
    omega
  have hfirst3 : (model_fn net x_t ts s).map (List.take 3)
      = halfEps net ts s x_t ++ halfEps net ts s x_t := by
    apply List.ext_getElem
    · rw [List.length_map, hlen, hHH]
    · intro i h1 h2
      simp only [List.getElem_map, model_fn, List.getElem_zipWith]
      exact List.take_left' (rect_getElem hHHr i h2)
  refine ⟨by rw [hlen, hx], ?_, hfirst3, ?_, ?_⟩
  · apply rect_of_getElem
    intro i hi
    rw [hlen] at hi
    simp only [model_fn, List.getElem_zipWith, List.length_append]
    rw [rect_getElem hHHr i (by omega), rect_getElem hRr i (by omega)]
    omega
  · rw [hfirst3, List.take_left' hH, List.drop_left' hH]
  · apply List.ext_getElem
    · rw [List.length_map, hlen, hRl]
    · intro i h1 h2
      simp only [List.getElem_map, model_fn, List.getElem_zipWith]
      exact List.drop_left' (rect_getElem hHHr i (by rw [hHH]; rw [hRl] at h2; omega))

theorem model_fn_shape_passthrough_witness :
    xW.length = 2 * 1
      ∧ (idNet (combinedOf xW) 0).length = 2 * 1
      ∧ Rect xW 4
      ∧ Rect (idNet (combinedOf xW) 0) 4
      ∧ 3 ≤ 4
      ∧ (model_fn idNet xW 0 2).length = xW.length
      ∧ Rect (model_fn idNet xW 0 2) 4
      ∧ (model_fn idNet xW 0 2).map (List.take 3)
          = halfEps idNet 0 2 xW ++ halfEps idNet 0 2 xW
      ∧ ((model_fn idNet xW 0 2).map (List.take 3)).take 1
          = ((model_fn idNet xW 0 2).map (List.take 3)).drop 1
      ∧ (model_fn idNet xW 0 2).map (List.drop 3) = restOf idNet 0 xW := by
  have h := model_fn_shape_passthrough idNet 0 2 xW 1 4 (by decide) (by decide)
    (by decide) (by decide) (by decide)
  exact ⟨by decide, by decide, by decide, by decide, by decide,
    h.1, h.2.1, h.2.2.1, h.2.2.2.1, h.2.2.2.2⟩

/-! ### Gradient guidance accumulation (`LatentGradientGuidedConditioning.forward`)

Source (glid3xl.py lines 132-140):

    img_grad = torch.zeros_like(img)
    for grad_mod in self.grad_modules:
        sub_grad = grad_mod(img, ot)
        if torch.isnan(sub_grad).any():
            print(grad_mod.__class__.__name__, "NaN")
            sub_grad = torch.zeros_like(img)
        img_grad += sub_grad

Image-space values may be not-a-number, so the scalar type is extended with a
NaN element; a gradient module is abstracted to the tensor it returns for the
step (the list `grads` below holds one returned gradient per module, in module
order). -/

/-- A scalar that is either a rational value or not-a-number. -/
inductive GVal where
  | nan : GVal
  | val (q : ℚ) : GVal
deriving DecidableEq

/-- Addition with NaN propagation. -/
def GVal.add : GVal → GVal → GVal
  | .nan, _ => .nan
  | .val _, .nan => .nan
  | .val a, .val b => .val (a + b)

/-- A flattened image-space tensor over NaN-capable scalars. -/
abbrev GTensor := List GVal

/-- Mirror of `torch.isnan(t).any()`. -/
def hasNaN (t : GTensor) : Bool :=
  t.any fun v => match v with | .nan => true | .val _ => false

/-- Mirror of `torch.zeros_like(t)`. -/
def zerosLike (t : GTensor) : GTensor := t.map fun _ => GVal.val 0

/-- Elementwise addition of two same-shaped tensors (`img_grad += sub_grad`). -/
def gAdd (a b : GTensor) : GTensor := List.zipWith GVal.add a b

/-- Lines 132-140: the accumulation loop over the gradient modules, each
module's returned gradient replaced by `zeros_like(img)` when it contains NaN. -/
def accumGrad (img : GTensor) (grads : List GTensor) : GTensor :=
  grads.foldl (fun acc g => gAdd acc (if hasNaN g then zerosLike img else g)) (zerosLike img)

/-- Plain elementwise sum of the module gradients, starting from zeros. -/
def sumGrads (img : GTensor) (grads : List GTensor) : GTensor :=
  grads.foldl gAdd (zerosLike img)

theorem gAdd_zerosLike (acc img : GTensor) (h : acc.length ≤ img.length) :
    gAdd acc (zerosLike img) = acc := by
  induction acc generalizing img with
  | nil => rfl
  | cons a acc ih =>
    cases img with
    | nil => simp at h
    | cons b img =>
      simp only [gAdd, zerosLike, List.map_cons, List.zipWith_cons_cons]
      rw [show GVal.add a (GVal.val 0) = a by cases a <;> simp [GVal.add]]
      exact congrArg _ (ih img (by simpa using h))

theorem accum_length_le (img : GTensor) (l : List GTensor) :
    ∀ acc : GTensor, acc.length ≤ img.length →
      (l.foldl (fun acc g => gAdd acc (if hasNaN g then zerosLike img else g)) acc).length
        ≤ img.length := by
  induction l with
  | nil => intro acc h; simpa using h
  | cons g l ih =>
    intro acc h
    apply ih
    simp only [gAdd, List.length_zipWith]
    omega

theorem accum_eq_sum_aux (img : GTensor) :
    ∀ (l : List GTensor), (∀ x ∈ l, hasNaN x = false) → ∀ acc : GTensor,
      l.foldl (fun acc g => gAdd acc (if hasNaN g then zerosLike img else g)) acc
        = l.foldl gAdd acc := by
  intro l
  induction l with
  | nil => intro _ acc; rfl
  | cons g l ih =>
    intro h acc
    simp only [List.foldl_cons, h g (l.mem_cons_self g), Bool.false_eq_true, if_false]
    exact ih (fun x hx => h x (List.mem_cons_of_mem g hx)) _

/-- C7: a gradient module whose returned gradient contains NaN contributes
exactly zero to the accumulated image-space gradient (removing it from the
module list leaves the accumulated gradient unchanged), and the accumulation is
total (no exception path exists in the embedding); when every module returns a
NaN-free gradient, the accumulated signal is the elementwise sum of all module
gradients. -/
theorem conditioning_nan_policy (img : GTensor) (pre post : List GTensor) (g : GTensor)
    (hg : hasNaN g = true)
    (grads : List GTensor) (hok : ∀ x ∈ grads, hasNaN x = false) :
    accumGrad img (pre ++ g :: post) = accumGrad img (pre ++ post)
      ∧ accumGrad img grads = sumGrads img grads := by
  constructor
  · simp only [accumGrad, List.foldl_append, List.foldl_cons, hg, if_true]
    rw [gAdd_zerosLike _ img (accum_length_le img pre _ (by simp [zerosLike]))]
  · exact accum_eq_sum_aux img grads hok _

theorem conditioning_nan_policy_witness :
    hasNaN [GVal.nan, GVal.val 5] = true
      ∧ ([[GVal.val 1, GVal.val 2], [GVal.val 3, GVal.val 4]].all fun x => !hasNaN x) = true
      ∧ accumGrad [GVal.val 1, GVal.val 2]
          ([[GVal.val 1, GVal.val 1]] ++ [GVal.nan, GVal.val 5] :: [[GVal.val 2, GVal.val 3]])
        = accumGrad [GVal.val 1, GVal.val 2] ([[GVal.val 1, GVal.val 1]] ++ [[GVal.val 2, GVal.val 3]])
      ∧ accumGrad [GVal.val 1, GVal.val 2] [[GVal.val 1, GVal.val 2], [GVal.val 3, GVal.val 4]]
        = sumGrads [GVal.val 1, GVal.val 2] [[GVal.val 1, GVal.val 2], [GVal.val 3, GVal.val 4]] := by
  have h := conditioning_nan_policy [GVal.val 1, GVal.val 2] [[GVal.val 1, GVal.val 1]]
    [[GVal.val 2, GVal.val 3]] [GVal.nan, GVal.val 5] (by decide)
    [[GVal.val 1, GVal.val 2], [GVal.val 3, GVal.val 4]] (by decide)
  exact ⟨by decide, by decide, h.1, h.2⟩

/-! ### The step history `old_eps`

Source (glid3xl.py lines 245-252):

    old_eps = []
    for _ in (trange if verbose else range)(n_steps):
        out = ...
        if "eps" in out:  # PLMS bookkeeping
            if len(old_eps) >= 3:
                old_eps.pop(0)
            old_eps.append(out["eps"])

A step outcome is abstracted to whether the step-update result exposes a raw
noise estimate (key "eps": `some e`) or not (`none`). -/

/-- One pass of the bookkeeping block for a single step outcome. -/
def updateOldEps {L : Type} (old : List L) : Option L → List L
  | none => old
  | some e => (if 3 ≤ old.length then old.drop 1 else old) ++ [e]

/-- The history after a run over a sequence of step outcomes, from the empty
start (`old_eps = []`). -/
def runHistory {L : Type} (outs : List (Option L)) : List L :=
  outs.foldl updateOldEps []

theorem updateOldEps_length_le {L : Type} (old : List L) (o : Option L)
    (h : old.length ≤ 3) : (updateOldEps old o).length ≤ 3 := by
  cases o with
  | none => simpa [updateOldEps] using h
  | some e =>
    simp only [updateOldEps, List.length_append, List.length_singleton]
    split <;> simp <;> omega

theorem runHistory_aux_le {L : Type} (outs : List (Option L)) :
    ∀ acc : List L, acc.length ≤ 3 → (outs.foldl updateOldEps acc).length ≤ 3 := by
  induction outs with
  | nil => intro acc h; simpa using h
  | cons o outs ih => intro acc h; exact ih _ (updateOldEps_length_le acc o h)

/-- C8: the step history starts empty, never exceeds 3 entries over any run, is
left untouched by a step outcome that exposes no raw noise estimate, is appended
to while fewer than 3 entries are held, and once 3 entries are held the oldest
(front) entry is evicted before the new one is appended at the back. -/
theorem old_eps_invariant {L : Type} (outs : List (Option L)) (old : List L) (e : L)
    (small : List L) (hsmall : small.length < 3)
    (big : List L) (hbig : 3 ≤ big.length) :
    runHistory ([] : List (Option L)) = []
      ∧ (runHistory outs).length ≤ 3
      ∧ updateOldEps old none = old
      ∧ updateOldEps small (some e) = small ++ [e]
      ∧ updateOldEps big (some e) = big.drop 1 ++ [e] := by
  refine ⟨rfl, runHistory_aux_le outs [] (by simp), rfl, ?_, ?_⟩
  · simp only [updateOldEps]
    rw [if_neg (by omega)]
  · simp only [updateOldEps]
    rw [if_pos hbig]

theorem old_eps_invariant_witness :
    ([1, 2] : List ℚ).length < 3
      ∧ 3 ≤ ([4, 5, 6] : List ℚ).length
      ∧ runHistory ([] : List (Option ℚ)) = []
      ∧ (runHistory [some (1 : ℚ), none, some 2, some 3, some 4, some 5]).length ≤ 3
      ∧ updateOldEps ([9] : List ℚ) none = [9]
      ∧ updateOldEps ([1, 2] : List ℚ) (some 7) = [1, 2] ++ [7]
      ∧ updateOldEps ([4, 5, 6] : List ℚ) (some 7) = ([4, 5, 6] : List ℚ).drop 1 ++ [7] := by
  have h := old_eps_invariant [some (1 : ℚ), none, some 2, some 3, some 4, some 5]
    ([9] : List ℚ) 7 [1, 2] (by decide) [4, 5, 6] (by decide)
  exact ⟨by decide, by decide, h.1, h.2.1, h.2.2.1, h.2.2.2.1, h.2.2.2.2⟩

/-! ### Backward-guidance activation at construction

Source (glid3xl.py lines 158 and 168-174):

    self.use_backward_guidance = any(gm.scale > 0 for gm in grad_modules)
    ...
    self.conditioning = (
        LatentGradientGuidedConditioning(
            ..., [gm for gm in grad_modules if gm.scale != 0], ...
        ).to(device)
        if self.use_backward_guidance
        else None
    ) -/

/-- A configured gradient module, abstracted to its scale attribute. -/
structure GradModule where
  scale : ℚ
deriving DecidableEq

/-- Line 158: `any(gm.scale > 0 for gm in grad_modules)`. -/
def useBackwardGuidance (gms : List GradModule) : Bool :=
  gms.any fun gm => decide (gm.scale > 0)

/-- Lines 168-174: the conditioner is built, over the modules of non-zero
scale, exactly when `use_backward_guidance` holds; otherwise it is `None`. -/
def conditioningOf (gms : List GradModule) : Option (List GradModule) :=
  if useBackwardGuidance gms then
    some (gms.filter fun gm => decide (gm.scale ≠ 0))
  else none

/-- C9 counterexample: a single module with scale -1 has a non-empty set of
non-zero-scale modules, yet backward guidance is NOT activated, refuting the
claimed "active iff the non-zero-scale set is non-empty" at this input. -/
theorem backward_guidance_counterexample :
    ¬ (useBackwardGuidance [⟨-1⟩] = true
        ↔ ([⟨-1⟩] : List GradModule).filter (fun gm => decide (gm.scale ≠ 0)) ≠ []) := by
  decide

/-- C9 amended: backward guidance is active iff some configured gradient module
has strictly positive scale; the conditioner is built exactly in that case
(once, at construction), holding the modules of non-zero scale. -/
theorem backward_guidance_activation (gms : List GradModule) :
    (useBackwardGuidance gms = true ↔ ∃ gm ∈ gms, 0 < gm.scale)
      ∧ ((conditioningOf gms).isSome = useBackwardGuidance gms)
      ∧ (useBackwardGuidance gms = true →
          conditioningOf gms = some (gms.filter fun gm => decide (gm.scale ≠ 0)))
      ∧ (useBackwardGuidance gms = false → conditioningOf gms = none) := by
  refine ⟨?_, ?_, ?_, ?_⟩
  · simp [useBackwardGuidance, List.any_eq_true]
  · cases h : useBackwardGuidance gms <;> simp [conditioningOf, h]
  · intro h; simp [conditioningOf, h]
  · intro h; simp [conditioningOf, h]

theorem backward_guidance_activation_witness :
    useBackwardGuidance [⟨2⟩, ⟨0⟩, ⟨-1⟩] = true
      ∧ conditioningOf [⟨2⟩, ⟨0⟩, ⟨-1⟩]
        = some (([⟨2⟩, ⟨0⟩, ⟨-1⟩] : List GradModule).filter fun gm => decide (gm.scale ≠ 0)) := by
  exact ⟨by decide, (backward_guidance_activation [⟨2⟩, ⟨0⟩, ⟨-1⟩]).2.2.1 (by decide)⟩

/-! ### The reverse sampling loop `GLID3XL.sample` and the entry `forward`

Source (glid3xl.py lines 212-261):

    @torch.no_grad()
    def sample(self, img, prompts, start_step, n_steps=None, verbose=True):
        if n_steps is None:
            n_steps = start_step
        t = torch.tensor([start_step] * img.shape[0], ...)
        noise = torch.randn_like(img)
        if self.use_backward_guidance:
            self.conditioning.set_targets([p.to(img) for p in prompts], noise)
        img = self.diffusion.q_sample(img, t, noise)
        for prompt in prompts:
            if isinstance(prompt, TextPrompt):
                text, guidance_scale = prompt()
                break
        negative = ""
        text_emb = self.bert.encode([text] * img.shape[0])
        text_blank = self.bert.encode([negative] * img.shape[0])
        context = torch.cat([text_emb, text_blank], dim=0)...
        ...
        t = torch.tensor([start_step] * img.shape[0], ...)
        old_eps = []
        for _ in (trange if verbose else range)(n_steps):
            out = self.sample_fn(old_eps, guidance_scale)(out["sample"], t, ...)
            if "eps" in out:
                if len(old_eps) >= 3:
                    old_eps.pop(0)
                old_eps.append(out["eps"])
            t -= 1
        return out["pred_xstart"]

    def forward(self, shape, prompts, model_kwargs={}):
        img = torch.randn(*shape, device=self.device)
        steps = len(self.diffusion.use_timesteps)
        return self.sample(img, prompts, start_step=steps, n_steps=steps,
                           model_kwargs=model_kwargs)

Two Python-level failures are part of the semantics and are modelled as
explicit error values:
- the loop body reads `out["sample"]` (and line 256 reads `out["pred_xstart"]`)
  before the local variable `out` was ever assigned, so any execution reaching
  that read raises UnboundLocalError;
- when no prompt is a `TextPrompt`, the loop at lines 223-226 assigns nothing
  and line 229 reads the unassigned local `text`, raising UnboundLocalError;
- `forward` passes the keyword argument `model_kwargs` to `sample`, whose
  signature has no such parameter, so the call raises TypeError at binding
  time, before the body of `sample` runs.

External collaborators (diffusion schedule, text encoder, step-update
primitives) are abstracted into an environment record; randomness
(`torch.randn_like` / `torch.randn`) is a fixed value of the environment,
matching the deterministic-given-seed reading of the spec.  The batched
timestep `[start_step] * batch` is a single integer since all batch entries
stay equal. -/

/-- A prompt: either a text prompt carrying `(text, guidance_scale)` via its
call operator, or some other prompt kind. -/
inductive Prompt where
  | text (content : String) (guidanceScale : ℚ) : Prompt
  | other : Prompt

/-- Lines 223-226: scan for the first `TextPrompt` and read it. -/
def findTextPrompt : List Prompt → Option (String × ℚ)
  | [] => none
  | Prompt.text s g :: _ => some (s, g)
  | Prompt.other :: ps => findTextPrompt ps

/-- A Python runtime failure. -/
inductive PyErr where
  | unboundLocal (name : String) : PyErr
  | typeError (msg : String) : PyErr
deriving DecidableEq

/-- The mapping returned by a step-update primitive: the new sample, the
predicted fully-denoised estimate, and (for the multistep primitives) the raw
noise estimate under key "eps". -/
structure StepOut (L : Type) where
  sample : L
  pred_xstart : L
  eps : Option L

/-- The external collaborators of the sampling core. -/
structure SampleEnv (L C : Type) where
  q_sample : L → Nat → L → L
  noise : L
  randn : L
  encode : String → C
  stepFn : List L → ℚ → L → Int → C × C → StepOut L
  useTimesteps : Nat

/-- The loop state: the (possibly still unassigned) local `out`, the step
history, the batched timestep, and the number of completed iterations. -/
structure LoopState (L : Type) where
  out : Option (StepOut L)
  old_eps : List L
  t : Int
  done : Nat

/-- Lines 246-254: the denoising loop.  Each iteration reads `out["sample"]`;
when `out` is still unassigned this is an UnboundLocalError. -/
def sampleLoop {L C : Type} (env : SampleEnv L C) (gscale : ℚ) (kw : C × C) :
    Nat → LoopState L → Option PyErr × LoopState L
  | 0, st => (none, st)
  | n + 1, st =>
    match st.out with
    | none => (some (PyErr.unboundLocal "out"), st)
    | some o =>
      let outNew := env.stepFn st.old_eps gscale o.sample st.t kw
      sampleLoop env gscale kw n
        ⟨some outNew, updateOldEps st.old_eps outNew.eps, st.t - 1, st.done + 1⟩

/-- Lines 212-254 up to (but not including) the final return: resolve the
`n_steps` default, forward-noise the input, extract the text prompt, assemble
the context, and run the loop.  Returns the final loop state (with the error,
if any, that aborted the loop). -/
def sampleCore {L C : Type} (env : SampleEnv L C) (img : L) (prompts : List Prompt)
    (start_step : Nat) (n_steps : Option Nat) :
    Except PyErr (Option PyErr × LoopState L) :=
  let nSteps := n_steps.getD start_step
  -- line 221: `img = self.diffusion.q_sample(img, t, noise)`.  The rebound
  -- `img` is only ever used for its batch size afterwards: the loop reads
  -- `out["sample"]`, never this noised latent (the C1 slip).
  let _imgNoised := env.q_sample img start_step env.noise
  match findTextPrompt prompts with
  | none => Except.error (PyErr.unboundLocal "text")
  | some (text, gscale) =>
    -- lines 228-241: context assembly, `[conditional, unconditional]`.
    let context := (env.encode text, env.encode "")
    Except.ok (sampleLoop env gscale context nSteps ⟨none, [], (start_step : Int), 0⟩)

/-- Lines 212-256: the full `sample`, returning `out["pred_xstart"]` of the
final state — another read of `out`, unassigned when the loop ran 0 times. -/
def sampleModel {L C : Type} (env : SampleEnv L C) (img : L) (prompts : List Prompt)
    (start_step : Nat) (n_steps : Option Nat) : Except PyErr L :=
  match sampleCore env img prompts start_step n_steps with
  | Except.error e => Except.error e
  | Except.ok (some e, _) => Except.error e
  | Except.ok (none, st) =>
    match st.out with
    | none => Except.error (PyErr.unboundLocal "out")
    | some o => Except.ok o.pred_xstart

/-- Number of loop iterations that ran to completion in a call to `sample`
(0 when the text-prompt scan already failed). -/
def sampleIters {L C : Type} (env : SampleEnv L C) (img : L) (prompts : List Prompt)
    (start_step : Nat) (n_steps : Option Nat) : Nat :=
  match sampleCore env img prompts start_step n_steps with
  | Except.error _ => 0
  | Except.ok (_, st) => st.done

/-- The batched timestep after a call to `sample` (`none` when the text-prompt
scan already failed). -/
def sampleFinalT {L C : Type} (env : SampleEnv L C) (img : L) (prompts : List Prompt)
    (start_step : Nat) (n_steps : Option Nat) : Option Int :=
  match sampleCore env img prompts start_step n_steps with
  | Except.error _ => none
  | Except.ok (_, st) => some st.t

/-- Lines 258-261: `forward`.  The call `self.sample(..., model_kwargs=...)`
names a keyword parameter `sample` does not have, so Python raises TypeError at
the call itself; no sampling happens. -/
def forward {L C : Type} (env : SampleEnv L C) (prompts : List Prompt) : Except PyErr L :=
  let _img := env.randn
  let _steps := env.useTimesteps
  Except.error (PyErr.typeError "sample() got an unexpected keyword argument model_kwargs")

theorem sampleLoop_unassigned {L C : Type} (env : SampleEnv L C) (g : ℚ) (kw : C × C)
    (k : Nat) (st : LoopState L) (h : st.out = none) :
    sampleLoop env g kw (k + 1) st = (some (PyErr.unboundLocal "out"), st) := by
  simp [sampleLoop, h]

/-- C1 (code-bug evidence): whenever a text prompt is present and the resolved
number of steps is at least 1, the first loop iteration reads the unassigned
local `out` and the whole call fails with UnboundLocalError; the step-update
primitive is never applied to the forward-noised latent `q_sample` produced. -/
theorem sample_first_iteration_unbound {L C : Type} (env : SampleEnv L C) (img : L)
    (prompts : List Prompt) (start_step : Nat) (n_steps : Option Nat)
    (tx : String) (gs : ℚ) (hp : findTextPrompt prompts = some (tx, gs))
    (hn : 1 ≤ n_steps.getD start_step) :
    sampleModel env img prompts start_step n_steps
        = Except.error (PyErr.unboundLocal "out")
      ∧ sampleIters env img prompts start_step n_steps = 0 := by
  obtain ⟨k, hk⟩ : ∃ k, n_steps.getD start_step = k + 1 :=
    ⟨n_steps.getD start_step - 1, by omega⟩
  constructor
  · simp [sampleModel, sampleCore, hp, hk, sampleLoop]
  · simp [sampleIters, sampleCore, hp, hk, sampleLoop]

/-- A concrete environment over integer latents, used to instantiate the
sampling theorems. -/
def envW : SampleEnv Int Unit where
  q_sample := fun x _ n => x + n
  noise := 1
  randn := 5
  encode := fun _ => ()
  stepFn := fun _ _ x t _ => ⟨x + t, x, some x⟩
  useTimesteps := 4

theorem sample_first_iteration_unbound_witness :
    findTextPrompt [Prompt.other, Prompt.text "a red cube" 3] = some ("a red cube", 3)
      ∧ 1 ≤ (some 1 : Option Nat).getD 10
      ∧ sampleModel envW 0 [Prompt.other, Prompt.text "a red cube" 3] 10 (some 1)
          = Except.error (PyErr.unboundLocal "out")
      ∧ sampleIters envW 0 [Prompt.other, Prompt.text "a red cube" 3] 10 (some 1) = 0 := by
  have h := sample_first_iteration_unbound envW 0
    [Prompt.other, Prompt.text "a red cube" 3] 10 (some 1) "a red cube" 3 rfl (by decide)
  exact ⟨rfl, by decide, h.1, h.2⟩

/-- C4 (code-bug evidence): with `n_steps = 0` the loop body never runs and no
timestep decrement happens, but the final `return out["pred_xstart"]` reads the
unassigned local `out`, so the call fails with UnboundLocalError rather than
returning any posterior-mean projection. -/
theorem sample_zero_steps_unbound {L C : Type} (env : SampleEnv L C) (img : L)
    (prompts : List Prompt) (start_step : Nat)
    (tx : String) (gs : ℚ) (hp : findTextPrompt prompts = some (tx, gs)) :
    sampleModel env img prompts start_step (some 0)
        = Except.error (PyErr.unboundLocal "out")
      ∧ sampleIters env img prompts start_step (some 0) = 0
      ∧ sampleFinalT env img prompts start_step (some 0) = some (start_step : Int) := by
  refine ⟨?_, ?_, ?_⟩ <;>
    simp [sampleModel, sampleIters, sampleFinalT, sampleCore, hp, sampleLoop]

theorem sample_zero_steps_unbound_witness :
    findTextPrompt [Prompt.text "a" 1] = some ("a", 1)
      ∧ sampleModel envW 7 [Prompt.text "a" 1] 5 (some 0)
          = Except.error (PyErr.unboundLocal "out")
      ∧ sampleIters envW 7 [Prompt.text "a" 1] 5 (some 0) = 0
      ∧ sampleFinalT envW 7 [Prompt.text "a" 1] 5 (some 0) = some 5 := by
  have h := sample_zero_steps_unbound envW 7 [Prompt.text "a" 1] 5 "a" 1 rfl
  exact ⟨rfl, h.1, h.2.1, h.2.2⟩

/-- C5 (code-bug evidence): every call to `forward` fails with TypeError at the
inner `sample` call (unexpected keyword argument `model_kwargs`); it never
returns the result of a full-length sampling run. -/
theorem forward_type_error {L C : Type} (env : SampleEnv L C) (prompts : List Prompt) :
    forward env prompts
      = Except.error
          (PyErr.typeError "sample() got an unexpected keyword argument model_kwargs") :=
  rfl

/-- C6 (code-bug evidence): when no text-kind prompt is supplied, `sample`
fails with UnboundLocalError on the unassigned local `text` (at the encoding of
the prompt), not with an explicit "no text prompt supplied" error. -/
theorem sample_no_text_prompt_unbound {L C : Type} (env : SampleEnv L C) (img : L)
    (prompts : List Prompt) (start_step : Nat) (n_steps : Option Nat)
    (hp : findTextPrompt prompts = none) :
    sampleModel env img prompts start_step n_steps
      = Except.error (PyErr.unboundLocal "text") := by
  simp [sampleModel, sampleCore, hp]

theorem sample_no_text_prompt_unbound_witness :
    findTextPrompt [Prompt.other, Prompt.other] = none
      ∧ sampleModel envW 0 [Prompt.other, Prompt.other] 3 none
          = Except.error (PyErr.unboundLocal "text") := by
  exact ⟨rfl, sample_no_text_prompt_unbound envW 0 [Prompt.other, Prompt.other] 3 none rfl⟩

/-- C10 counterexample: at `start_step = 2` with `n_steps` omitted, the loop
does not run 2 iterations — it aborts in its first iteration on the unassigned
local `out`, having completed 0 iterations. -/
theorem sample_default_steps_counterexample :
    ¬ (sampleIters envW 0 [Prompt.text "a" 1] 2 none = 2) := by
  decide

/-- C10 amended: when the `n_steps` argument is omitted it is set to
`start_step` before the loop, so the call behaves exactly as if
`n_steps = start_step` had been passed explicitly (the loop is therefore
entered `start_step` times in intent; each observable of the run agrees). -/
theorem sample_default_steps {L C : Type} (env : SampleEnv L C) (img : L)
    (prompts : List Prompt) (start_step : Nat) :
    sampleModel env img prompts start_step none
        = sampleModel env img prompts start_step (some start_step)
      ∧ sampleIters env img prompts start_step none
        = sampleIters env img prompts start_step (some start_step)
      ∧ sampleFinalT env img prompts start_step none
        = sampleFinalT env img prompts start_step (some start_step) :=
  ⟨rfl, rfl, rfl⟩
